import Mathlib

/-!
Shallow embedding of the `calends` calendar-arithmetic library
(`src/addition.rs`, `src/interval/base.rs`) and verification of its
specification's testable properties.

Dates are modelled per the spec's data model: a triple
(year : integer, month : 1..12, day bounded by month/year validity).
The external date primitive's fallible constructor (`NaiveDate::from_ymd`,
which panics on invalid components) is modelled as an `Option`-returning
constructor `from_ymd`; a panic is `none`.
-/

namespace Calends

/-- A proleptic Gregorian calendar date, decomposed into year, month, day.
Mirrors the year/month/day accessors of the external date primitive. -/
structure Date where
  year : Int
  month : Nat
  day : Nat
deriving DecidableEq

/-- Proleptic Gregorian leap-year rule: divisible by 4 and
(not divisible by 100 or divisible by 400). -/
def isLeapYear (y : Int) : Bool :=
  y % 4 == 0 && (y % 100 != 0 || y % 400 == 0)

/-- Modelled from the spec: `util::month_end` (the MonthEndResolver, whose
source file is not part of the excerpt) returns the last calendar day of the
given month/year, handling 28/29-day Februaries via the leap-year rule and
30- vs 31-day months.  We return the day number of that last day (the Rust
code only ever consumes `month_end(..).day()`).  Outside months 1..12 the
resolver's behaviour is undefined per the spec; we return 0, so that no day
of a valid date fits in a nonexistent month. -/
def month_end (y : Int) (m : Nat) : Nat :=
  if m = 1 then 31
  else if m = 2 then (if isLeapYear y then 29 else 28)
  else if m = 3 then 31
  else if m = 4 then 30
  else if m = 5 then 31
  else if m = 6 then 30
  else if m = 7 then 31
  else if m = 8 then 31
  else if m = 9 then 30
  else if m = 10 then 31
  else if m = 11 then 30
  else if m = 12 then 31
  else 0

/-- Validity of a date, per the spec's data model invariant: month in 1..12
and day in 1..(last day of that month/year).  (No Feb-30, no day 0.) -/
def Date.Valid (d : Date) : Prop :=
  1 ≤ d.month ∧ d.month ≤ 12 ∧ 1 ≤ d.day ∧ d.day ≤ month_end d.year d.month

instance (d : Date) : Decidable d.Valid :=
  inferInstanceAs (Decidable (1 ≤ d.month ∧ d.month ≤ 12 ∧ 1 ≤ d.day ∧ d.day ≤ month_end d.year d.month))

/-- The external primitive's validating constructor `NaiveDate::from_ymd`:
it panics on invalid components, modelled as `none`. -/
def from_ymd (y : Int) (m d : Nat) : Option Date :=
  if (Date.mk y m d).Valid then some (Date.mk y m d) else none

/-- `addition::add_months_duration` from `src/addition.rs`, line for line:
the month/year rollover subtracts 12 at most once, then the day is resolved
by the end-of-month clamping policy, and the result is constructed with the
validating constructor. -/
def add_months_duration (date : Date) (months_to_add : Nat) : Option Date :=
  let month := date.month
  let year := date.year
  let month_delta := month + months_to_add
  let year := if month_delta > 12 then year + 1 else year
  let month := if month_delta > 12 then month_delta - 12 else month_delta
  let date_end_of_month := month_end date.year date.month
  let day :=
    if date_end_of_month = date.day then
      month_end year month
    else
      min date.day (month_end year month)
  from_ymd year month day

/-- `addition::add_month_duration`: wrapper for one month. -/
def add_month_duration (date : Date) : Option Date :=
  add_months_duration date 1

/-- `addition::add_quarter_duration`: quarter shift with no day clamping. -/
def add_quarter_duration (date : Date) : Option Date :=
  if date.month ≥ 10 then
    from_ymd (date.year + 1) 1 date.day
  else
    from_ymd date.year (date.month + 3) date.day

/-- `addition::add_year_duration`: next year, month and day held fixed. -/
def add_year_duration (date : Date) : Option Date :=
  from_ymd (date.year + 1) date.month date.day

/-- Calendar successor of a date (ignoring the representable range): next
day in the month, else first day of the next month, else January 1 of the
next year. -/
def next_date (d : Date) : Date :=
  if d.day < month_end d.year d.month then Date.mk d.year d.month (d.day + 1)
  else if d.month < 12 then Date.mk d.year (d.month + 1) 1
  else Date.mk (d.year + 1) 1 1

/-- Calendar predecessor of a date (ignoring the representable range). -/
def prev_date (d : Date) : Date :=
  if 1 < d.day then Date.mk d.year d.month (d.day - 1)
  else if 1 < d.month then Date.mk d.year (d.month - 1) (month_end d.year (d.month - 1))
  else Date.mk (d.year - 1) 12 31

/-- The maximum representable date of the external date primitive
(chrono's `NaiveDate::MAX`, December 31 of year 262143). -/
def max_date : Date := Date.mk 262143 12 31

/-- The minimum representable date of the external date primitive
(chrono's `NaiveDate::MIN`, January 1 of year -262144). -/
def min_date : Date := Date.mk (-262144) 1 1

/-- The external primitive's day-successor stepping `NaiveDate::succ_opt`:
fails exactly at the maximum representable date. -/
def succ_opt (d : Date) : Option Date :=
  if d = max_date then none else some (next_date d)

/-- The external primitive's day-predecessor stepping `NaiveDate::pred_opt`:
fails exactly at the minimum representable date. -/
def pred_opt (d : Date) : Option Date :=
  if d = min_date then none else some (prev_date d)

/-- The external primitive's fixed-length duration addition
(`date + chrono::Duration::days(n)`), modelled by its contract as n
successive day-successor steps; stepping past the representable range
(a panic in the primitive) is `none`. -/
def addDaysOpt (d : Date) : Nat → Option Date
  | 0 => some d
  | n + 1 => (addDaysOpt d n).bind succ_opt

/-- `addition::add_week_duration`: `date + Duration::weeks(1)`, a fixed
span of 7 days. -/
def add_week_duration (date : Date) : Option Date :=
  addDaysOpt date 7

/-- `addition::add_biweek_duration`: `date + Duration::weeks(2)`, a fixed
span of 14 days. -/
def add_biweek_duration (date : Date) : Option Date :=
  addDaysOpt date 14

/-- `addition::add_day`: `date + Duration::days(1)`. -/
def add_day (date : Date) : Option Date :=
  addDaysOpt date 1

/-- One side of an interval, mirroring `std::ops::Bound`. -/
inductive Bound (α : Type) where
  | Included (a : α)
  | Excluded (a : α)
  | Unbounded
deriving DecidableEq

/-- An instance of the `BaseInterval` trait of `src/interval/base.rs`:
anything exposing `start()` and `end()` bounds.  The derived queries below
are the trait's default methods. -/
structure BaseInterval where
  start : Bound Date
  end_ : Bound Date

/-- `BaseInterval::start_date` from `src/interval/base.rs`. -/
def BaseInterval.start_date (i : BaseInterval) : Option Date :=
  match i.start with
  | Bound.Included d => some d
  | Bound.Excluded d => succ_opt d
  | Bound.Unbounded => none

/-- `BaseInterval::end_date` from `src/interval/base.rs`. -/
def BaseInterval.end_date (i : BaseInterval) : Option Date :=
  match i.end_ with
  | Bound.Included d => some d
  | Bound.Excluded d => pred_opt d
  | Bound.Unbounded => none

/-! ### Basic lemmas -/

/-- Every real month (1..12) has at least 28 days. -/
theorem month_end_pos (y : Int) (m : Nat) (h1 : 1 ≤ m) (h2 : m ≤ 12) :
    28 ≤ month_end y m := by
  interval_cases m <;> simp [month_end] <;> split <;> omega

/-- A month number beyond 12 resolves to no days at all. -/
theorem month_end_of_gt (y : Int) (m : Nat) (h : 12 < m) : month_end y m = 0 := by
  unfold month_end
  rw [if_neg (show ¬ m = 1 by omega), if_neg (show ¬ m = 2 by omega),
    if_neg (show ¬ m = 3 by omega), if_neg (show ¬ m = 4 by omega),
    if_neg (show ¬ m = 5 by omega), if_neg (show ¬ m = 6 by omega),
    if_neg (show ¬ m = 7 by omega), if_neg (show ¬ m = 8 by omega),
    if_neg (show ¬ m = 9 by omega), if_neg (show ¬ m = 10 by omega),
    if_neg (show ¬ m = 11 by omega), if_neg (show ¬ m = 12 by omega)]

/-- Validity of a literal date, unfolded. -/
theorem Date.valid_def (y : Int) (m d : Nat) :
    (Date.mk y m d).Valid ↔ (1 ≤ m ∧ m ≤ 12 ∧ 1 ≤ d ∧ d ≤ month_end y m) :=
  Iff.rfl

/-- Associativity of `Option.bind`. -/
theorem option_bind_assoc {α β γ : Type} (o : Option α) (f : α → Option β)
    (g : β → Option γ) :
    (o.bind f).bind g = o.bind fun x => (f x).bind g := by
  cases o <;> rfl

/-- Fixed-length day addition splits over a sum of day counts. -/
theorem addDaysOpt_add (d : Date) (a b : Nat) :
    addDaysOpt d (a + b) = (addDaysOpt d a).bind fun x => addDaysOpt x b := by
  induction b with
  | zero =>
    rw [Nat.add_zero]
    cases addDaysOpt d a <;> rfl
  | succ n ih =>
    show (addDaysOpt d (a + n)).bind succ_opt = _
    rw [ih, option_bind_assoc]
    rfl

/-- The validating constructor succeeds on valid components. -/
theorem from_ymd_of_valid (y : Int) (m d : Nat) (h : (Date.mk y m d).Valid) :
    from_ymd y m d = some (Date.mk y m d) := by
  unfold from_ymd
  rw [if_pos h]

/-- Whatever the validating constructor returns is that very date, and valid. -/
theorem from_ymd_some (y : Int) (m d : Nat) (r : Date) (h : from_ymd y m d = some r) :
    r = Date.mk y m d ∧ r.Valid := by
  unfold from_ymd at h
  split_ifs at h with hv
  cases h
  exact ⟨rfl, hv⟩

/-- `add_months_duration`, written out with its lets resolved. -/
theorem add_months_duration_eq (D : Date) (m : Nat) :
    add_months_duration D m =
      from_ymd (if D.month + m > 12 then D.year + 1 else D.year)
        (if D.month + m > 12 then D.month + m - 12 else D.month + m)
        (if month_end D.year D.month = D.day then
          month_end (if D.month + m > 12 then D.year + 1 else D.year)
            (if D.month + m > 12 then D.month + m - 12 else D.month + m)
         else
          min D.day (month_end (if D.month + m > 12 then D.year + 1 else D.year)
            (if D.month + m > 12 then D.month + m - 12 else D.month + m))) := rfl

/-! ### Claims -/

/-- C1 counterexample: the claim fails as stated.  For the valid date
2022-01-01 and `months_to_add = 24` the single-subtraction rollover yields
target month 13, and the final date construction fails (a panic in the
Rust code, `none` here) instead of producing a valid date. -/
theorem add_months_duration_24_fails :
    (Date.mk 2022 1 1).Valid ∧ add_months_duration (Date.mk 2022 1 1) 24 = none := by
  decide

/-- C1 (amended): for every valid date D and months_to_add m with
`D.month + m ≤ 24` (so the once-subtracted rollover lands in 1..12),
`add_months_duration` returns a valid Gregorian calendar date and the final
date construction succeeds. -/
theorem add_months_duration_valid (D : Date) (m : Nat) (hv : D.Valid)
    (hm : D.month + m ≤ 24) :
    ∃ r, add_months_duration D m = some r ∧ r.Valid := by
  obtain ⟨h1, h2, h3, h4⟩ := hv
  rw [add_months_duration_eq]
  by_cases h12 : D.month + m > 12
  · simp only [if_pos h12]
    have hm1 : 1 ≤ D.month + m - 12 := by omega
    have hm2 : D.month + m - 12 ≤ 12 := by omega
    have hpos := month_end_pos (D.year + 1) (D.month + m - 12) hm1 hm2
    by_cases heom : month_end D.year D.month = D.day
    · rw [if_pos heom]
      have hval : (Date.mk (D.year + 1) (D.month + m - 12)
          (month_end (D.year + 1) (D.month + m - 12))).Valid :=
        (Date.valid_def _ _ _).mpr (by omega)
      exact ⟨_, from_ymd_of_valid _ _ _ hval, hval⟩
    · rw [if_neg heom]
      have hval : (Date.mk (D.year + 1) (D.month + m - 12)
          (min D.day (month_end (D.year + 1) (D.month + m - 12)))).Valid :=
        (Date.valid_def _ _ _).mpr (by omega)
      exact ⟨_, from_ymd_of_valid _ _ _ hval, hval⟩
  · simp only [if_neg h12]
    have hm1 : 1 ≤ D.month + m := by omega
    have hm2 : D.month + m ≤ 12 := by omega
    have hpos := month_end_pos D.year (D.month + m) hm1 hm2
    by_cases heom : month_end D.year D.month = D.day
    · rw [if_pos heom]
      have hval : (Date.mk D.year (D.month + m)
          (month_end D.year (D.month + m))).Valid :=
        (Date.valid_def _ _ _).mpr (by omega)
      exact ⟨_, from_ymd_of_valid _ _ _ hval, hval⟩
    · rw [if_neg heom]
      have hval : (Date.mk D.year (D.month + m)
          (min D.day (month_end D.year (D.month + m)))).Valid :=
        (Date.valid_def _ _ _).mpr (by omega)
      exact ⟨_, from_ymd_of_valid _ _ _ hval, hval⟩

/-- C1 witness: the amended theorem applied at 2022-01-31 plus 13 months. -/
theorem add_months_duration_valid_witness :
    ∃ r, add_months_duration (Date.mk 2022 1 31) 13 = some r ∧ r.Valid :=
  add_months_duration_valid (Date.mk 2022 1 31) 13 (by decide) (by decide)

/-- C2 counterexample: the claim fails as stated.  2022-01-31 is a valid
date and the last day of its month, yet for m = 24 the construction fails
(`none`, a panic in the Rust code), so the result is not the last day of
any month. -/
theorem add_months_duration_last_day_24_fails :
    (Date.mk 2022 1 31).Valid ∧
    (Date.mk 2022 1 31).day = month_end 2022 1 ∧
    add_months_duration (Date.mk 2022 1 31) 24 = none := by
  decide

/-- C2 (amended): for every valid date D that is the last day of its month
and every m with `D.month + m ≤ 24`, the result of `add_months_duration`
exists and is the last day of the month it falls in. -/
theorem add_months_duration_last_day (D : Date) (m : Nat) (hv : D.Valid)
    (heom : D.day = month_end D.year D.month) (hm : D.month + m ≤ 24) :
    ∃ r, add_months_duration D m = some r ∧ r.day = month_end r.year r.month := by
  obtain ⟨h1, h2, h3, h4⟩ := hv
  rw [add_months_duration_eq, if_pos heom.symm]
  by_cases h12 : D.month + m > 12
  · simp only [if_pos h12]
    have hm1 : 1 ≤ D.month + m - 12 := by omega
    have hm2 : D.month + m - 12 ≤ 12 := by omega
    have hpos := month_end_pos (D.year + 1) (D.month + m - 12) hm1 hm2
    have hval : (Date.mk (D.year + 1) (D.month + m - 12)
        (month_end (D.year + 1) (D.month + m - 12))).Valid :=
      (Date.valid_def _ _ _).mpr (by omega)
    exact ⟨_, from_ymd_of_valid _ _ _ hval, rfl⟩
  · simp only [if_neg h12]
    have hm1 : 1 ≤ D.month + m := by omega
    have hm2 : D.month + m ≤ 12 := by omega
    have hpos := month_end_pos D.year (D.month + m) hm1 hm2
    have hval : (Date.mk D.year (D.month + m)
        (month_end D.year (D.month + m))).Valid :=
      (Date.valid_def _ _ _).mpr (by omega)
    exact ⟨_, from_ymd_of_valid _ _ _ hval, rfl⟩

/-- C2 witness: end-of-month is preserved from 2022-01-31 over 13 months. -/
theorem add_months_duration_last_day_witness :
    ∃ r, add_months_duration (Date.mk 2022 1 31) 13 = some r ∧
      r.day = month_end r.year r.month :=
  add_months_duration_last_day (Date.mk 2022 1 31) 13 (by decide) (by decide)
    (by decide)

/-- C3: if a valid D is not the last day of its month and the target month
computed by the rollover of `add_months_duration` has at least `D.day` days,
the result exists and its day-of-month equals `D.day`.  (A target month
beyond 12 has no days at all, so the fit hypothesis already confines the
rollover to real months.) -/
theorem add_months_duration_day_preserved (D : Date) (m : Nat) (hv : D.Valid)
    (hne : D.day ≠ month_end D.year D.month)
    (hfit : D.day ≤ month_end (if D.month + m > 12 then D.year + 1 else D.year)
      (if D.month + m > 12 then D.month + m - 12 else D.month + m)) :
    ∃ r, add_months_duration D m = some r ∧ r.day = D.day := by
  obtain ⟨h1, h2, h3, h4⟩ := hv
  rw [add_months_duration_eq,
    if_neg (show ¬(month_end D.year D.month = D.day) from fun hh => hne hh.symm)]
  by_cases h12 : D.month + m > 12
  · simp only [if_pos h12] at hfit ⊢
    have hm2 : D.month + m - 12 ≤ 12 := by
      by_contra hgt
      have h0 := month_end_of_gt (D.year + 1) (D.month + m - 12) (by omega)
      omega
    have hm1 : 1 ≤ D.month + m - 12 := by omega
    have hmin : min D.day (month_end (D.year + 1) (D.month + m - 12)) = D.day := by
      omega
    rw [hmin]
    have hval : (Date.mk (D.year + 1) (D.month + m - 12) D.day).Valid :=
      (Date.valid_def _ _ _).mpr (by omega)
    exact ⟨_, from_ymd_of_valid _ _ _ hval, rfl⟩
  · simp only [if_neg h12] at hfit ⊢
    have hm1 : 1 ≤ D.month + m := by omega
    have hm2 : D.month + m ≤ 12 := by omega
    have hmin : min D.day (month_end D.year (D.month + m)) = D.day := by omega
    rw [hmin]
    have hval : (Date.mk D.year (D.month + m) D.day).Valid :=
      (Date.valid_def _ _ _).mpr (by omega)
    exact ⟨_, from_ymd_of_valid _ _ _ hval, rfl⟩

/-- C3 witness: 2022-01-15 plus one month keeps day 15. -/
theorem add_months_duration_day_preserved_witness :
    ∃ r, add_months_duration (Date.mk 2022 1 15) 1 = some r ∧ r.day = 15 :=
  add_months_duration_day_preserved (Date.mk 2022 1 15) 1 (by decide) (by decide)
    (by decide)

/-- C4: whatever date `add_months_duration` produces carries exactly the
year and month of the single-subtraction rollover: raw = month + m; if
raw > 12 then (year + 1, raw - 12), else (year, raw). -/
theorem add_months_duration_rollover (D : Date) (m : Nat) (r : Date)
    (h : add_months_duration D m = some r) :
    r.year = (if D.month + m > 12 then D.year + 1 else D.year) ∧
    r.month = (if D.month + m > 12 then D.month + m - 12 else D.month + m) := by
  rw [add_months_duration_eq] at h
  obtain ⟨rfl, -⟩ := from_ymd_some _ _ _ _ h
  exact ⟨rfl, rfl⟩

/-- C4 witness: the rollover formula checked on 2022-01-01 plus one month. -/
theorem add_months_duration_rollover_witness :
    (Date.mk 2022 2 1).year =
      (if (Date.mk 2022 1 1).month + 1 > 12 then (Date.mk 2022 1 1).year + 1
       else (Date.mk 2022 1 1).year) ∧
    (Date.mk 2022 2 1).month =
      (if (Date.mk 2022 1 1).month + 1 > 12 then (Date.mk 2022 1 1).month + 1 - 12
       else (Date.mk 2022 1 1).month + 1) :=
  add_months_duration_rollover (Date.mk 2022 1 1) 1 (Date.mk 2022 2 1) (by decide)

/-- C5 counterexample: the claim fails as stated.  2022-01-31 is a valid
date, but `add_quarter_duration` does not return the date
(2022, month 4, day 31): no such calendar date exists and the unclamped
construction fails (a panic in the Rust code, `none` here). -/
theorem add_quarter_duration_jan31_fails :
    (Date.mk 2022 1 31).Valid ∧ add_quarter_duration (Date.mk 2022 1 31) = none := by
  decide

/-- C5 (amended): for every valid date D whose day also exists in the
shifted target month, `add_quarter_duration` returns exactly
(year + 1, month 1, same day) when `D.month ≥ 10` and
(year, month + 3, same day) otherwise — the day is never clamped; when the
day does not exist in the target month the construction fails instead. -/
theorem add_quarter_duration_no_clamp (D : Date) (hv : D.Valid)
    (hfit : (Date.mk (if D.month ≥ 10 then D.year + 1 else D.year)
      (if D.month ≥ 10 then 1 else D.month + 3) D.day).Valid) :
    add_quarter_duration D =
      some (Date.mk (if D.month ≥ 10 then D.year + 1 else D.year)
        (if D.month ≥ 10 then 1 else D.month + 3) D.day) := by
  unfold add_quarter_duration
  by_cases h10 : D.month ≥ 10
  · simp only [if_pos h10] at hfit ⊢
    exact from_ymd_of_valid _ _ _ hfit
  · simp only [if_neg h10] at hfit ⊢
    exact from_ymd_of_valid _ _ _ hfit

/-- C5 witness: a quarter after 2022-01-01 is exactly 2022-04-01. -/
theorem add_quarter_duration_no_clamp_witness :
    add_quarter_duration (Date.mk 2022 1 1) =
      some (Date.mk (if (Date.mk 2022 1 1).month ≥ 10 then (Date.mk 2022 1 1).year + 1
          else (Date.mk 2022 1 1).year)
        (if (Date.mk 2022 1 1).month ≥ 10 then 1 else (Date.mk 2022 1 1).month + 3)
        (Date.mk 2022 1 1).day) :=
  add_quarter_duration_no_clamp (Date.mk 2022 1 1) (by decide) (by decide)

/-- C6 counterexample: the claim fails as stated.  2020-02-29 is a valid
date, but `add_year_duration` does not return a date with year 2021 and
month/day 02-29: 2021 is not a leap year and the construction fails
(a panic in the Rust code, `none` here). -/
theorem add_year_duration_feb29_fails :
    (Date.mk 2020 2 29).Valid ∧ add_year_duration (Date.mk 2020 2 29) = none := by
  decide

/-- C6 (amended): for every valid date D other than a February 29,
`add_year_duration` returns the date with year `D.year + 1` and the month
and day of D unchanged; on February 29 the construction fails. -/
theorem add_year_duration_eq (D : Date) (hv : D.Valid)
    (hne : ¬(D.month = 2 ∧ D.day = 29)) :
    add_year_duration D = some (Date.mk (D.year + 1) D.month D.day) := by
  obtain ⟨h1, h2, h3, h4⟩ := hv
  unfold add_year_duration
  apply from_ymd_of_valid
  rw [Date.valid_def]
  refine ⟨h1, h2, h3, ?_⟩
  by_cases hm2 : D.month = 2
  · have hd29 : D.day ≠ 29 := fun hd => hne ⟨hm2, hd⟩
    rw [hm2] at h4 ⊢
    have h29 : month_end D.year 2 ≤ 29 := by
      simp [month_end]
      split <;> omega
    have h28 : 28 ≤ month_end (D.year + 1) 2 :=
      month_end_pos (D.year + 1) 2 (by omega) (by omega)
    omega
  · have hme : month_end (D.year + 1) D.month = month_end D.year D.month := by
      obtain ⟨y, mo, dd⟩ := D
      simp only at h1 h2 hm2 ⊢
      interval_cases mo <;> first | (exact absurd rfl hm2) | rfl
    omega

/-- C6 witness: a year after 2022-05-18 is 2023-05-18. -/
theorem add_year_duration_eq_witness :
    add_year_duration (Date.mk 2022 5 18) = some (Date.mk ((2022 : Int) + 1) 5 18) :=
  add_year_duration_eq (Date.mk 2022 5 18) (by decide) (by decide)

/-- C7: `start_date` maps an Included start to itself, an Excluded start to
its day-successor (`none` when the bound sits at the maximum representable
date), and an Unbounded start to `none`; `end_date` behaves symmetrically
with the day-predecessor and the minimum representable date. -/
theorem start_end_date_spec (i : BaseInterval) :
    (∀ d, i.start = Bound.Included d → i.start_date = some d) ∧
    (∀ d, i.start = Bound.Excluded d →
      (d = max_date → i.start_date = none) ∧
      (d ≠ max_date → i.start_date = some (next_date d))) ∧
    (i.start = Bound.Unbounded → i.start_date = none) ∧
    (∀ d, i.end_ = Bound.Included d → i.end_date = some d) ∧
    (∀ d, i.end_ = Bound.Excluded d →
      (d = min_date → i.end_date = none) ∧
      (d ≠ min_date → i.end_date = some (prev_date d))) ∧
    (i.end_ = Bound.Unbounded → i.end_date = none) := by
  refine ⟨?_, ?_, ?_, ?_, ?_, ?_⟩
  · intro d hd
    simp only [BaseInterval.start_date, hd]
  · intro d hd
    constructor
    · intro he
      simp only [BaseInterval.start_date, hd, succ_opt, if_pos he]
    · intro hne
      simp only [BaseInterval.start_date, hd, succ_opt, if_neg hne]
  · intro hd
    simp only [BaseInterval.start_date, hd]
  · intro d hd
    simp only [BaseInterval.end_date, hd]
  · intro d hd
    constructor
    · intro he
      simp only [BaseInterval.end_date, hd, pred_opt, if_pos he]
    · intro hne
      simp only [BaseInterval.end_date, hd, pred_opt, if_neg hne]
  · intro hd
    simp only [BaseInterval.end_date, hd]

/-- C7 witness: an Excluded start at the maximum representable date gives
no start date. -/
theorem start_end_date_spec_witness :
    BaseInterval.start_date (BaseInterval.mk (Bound.Excluded max_date) Bound.Unbounded) = none :=
  ((start_end_date_spec (BaseInterval.mk (Bound.Excluded max_date) Bound.Unbounded)).2.1
    max_date rfl).1 rfl

/-- C8: `add_month_duration` is exactly `add_months_duration` with one
month. -/
theorem add_month_duration_eq_one (D : Date) :
    add_month_duration D = add_months_duration D 1 := rfl

/-- C9: adding zero months to a valid date is the identity. -/
theorem add_months_duration_zero (D : Date) (hv : D.Valid) :
    add_months_duration D 0 = some D := by
  obtain ⟨h1, h2, h3, h4⟩ := hv
  rw [add_months_duration_eq]
  simp only [Nat.add_zero]
  have h12 : ¬(D.month > 12) := by omega
  simp only [if_neg h12]
  by_cases heom : month_end D.year D.month = D.day
  · rw [if_pos heom, heom]
    exact from_ymd_of_valid D.year D.month D.day ⟨h1, h2, h3, h4⟩
  · rw [if_neg heom]
    have hmin : min D.day (month_end D.year D.month) = D.day := by omega
    rw [hmin]
    exact from_ymd_of_valid D.year D.month D.day ⟨h1, h2, h3, h4⟩

/-- C9 witness: zero months added to 2022-05-18 returns it unchanged. -/
theorem add_months_duration_zero_witness :
    add_months_duration (Date.mk 2022 5 18) 0 = some (Date.mk 2022 5 18) :=
  add_months_duration_zero (Date.mk 2022 5 18) (by decide)

/-- C10: adding a biweek is adding a week twice, and adding a week is seven
successive day additions. -/
theorem add_biweek_eq_two_weeks (D : Date) (h : (addDaysOpt D 14).isSome = true) :
    add_biweek_duration D = (add_week_duration D).bind add_week_duration ∧
    add_week_duration D =
      ((((((add_day D).bind add_day).bind add_day).bind add_day).bind
        add_day).bind add_day).bind add_day := by
  constructor
  · exact addDaysOpt_add D 7 7
  · rfl

/-- C10 witness: both decompositions checked from 2022-05-18. -/
theorem add_biweek_eq_two_weeks_witness :
    (addDaysOpt (Date.mk 2022 5 18) 14).isSome = true ∧
    add_biweek_duration (Date.mk 2022 5 18) =
      (add_week_duration (Date.mk 2022 5 18)).bind add_week_duration :=
  ⟨by decide, (add_biweek_eq_two_weeks (Date.mk 2022 5 18) (by decide)).1⟩

end Calends
